import Mathlib

/-!
Verification development for the `fair` distributed fairness tracker.

The definitions below are a shallow embedding of the Go sources:

* `Fair.Store` embeds `pkg/state/store/inmemory.go` (`InMemoryStore`):
  the nested map `seed -> row -> col -> bucket` becomes nested association
  lists, `float64` probabilities become exact rationals (`Rat`), and
  `uint64` timestamps become `Nat`.
* `Fair.Tracker` embeds the `FairnessTracker` rotation and dual-write
  dispatch logic from `pkg/tracker`; the underlying counting structure
  (`request.Tracker`) is kept abstract, exactly as the Go code consumes it
  through an interface.
* `Fair.Hub` embeds the broadcast hub event loop from `pkg/broadcast/hub.go`.
* `Fair.StateClient` embeds the bounded non-blocking outbound queue of
  `pkg/state/client/client.go`.
-/

namespace Fair

/-- One bucket of the aggregation store, mirroring `statepb.Bucket`
(`RowId`, `ColId`, `Prob`, `LastUpdateTimeMs`). `float64` is modelled as
an exact rational. -/
structure Bucket where
  rowId : Nat
  colId : Nat
  prob : Rat
  lastUpdateTimeMs : Nat
deriving DecidableEq, Repr

/-- Association-list lookup, modelling Go map indexing `m[k]`. -/
def alistFind (k : Nat) : List (Nat × α) → Option α
  | [] => none
  | (k1, v) :: rest => if k1 = k then some v else alistFind k rest

/-- Association-list update, modelling Go map assignment `m[k] = v`. -/
def alistSet (k : Nat) (v : α) : List (Nat × α) → List (Nat × α)
  | [] => [(k, v)]
  | (k1, v1) :: rest =>
    if k1 = k then (k, v) :: rest else (k1, v1) :: alistSet k v rest

/-- `col -> bucket`, the innermost Go map. -/
abbrev ColMap := List (Nat × Bucket)

/-- `row -> col -> bucket`. -/
abbrev RowMap := List (Nat × ColMap)

/-- The store contents: `seed -> row -> col -> bucket`, the `buckets`
field of `InMemoryStore`. -/
abbrev Store := List (Nat × RowMap)

/-- `InMemoryStore.ApplyDelta`: lazily create the intermediate maps and the
bucket (initial prob `0`, timestamp `0`), add `deltaProb`, clamp to
`[0, 1]` (first the `< 0` branch, then the `> 1` branch, as in the Go
code), keep the maximum timestamp, and return a copy of the updated
bucket together with the new store. The Go error result is always `nil`
and is omitted. -/
def applyDelta (seed rowID colID : Nat) (deltaProb : Rat)
    (timestampMs : Nat) (s : Store) : Bucket × Store :=
  let rowMap := (alistFind seed s).getD []
  let colMap := (alistFind rowID rowMap).getD []
  let bucket := (alistFind colID colMap).getD
    { rowId := rowID, colId := colID, prob := 0, lastUpdateTimeMs := 0 }
  let p0 := bucket.prob + deltaProb
  let p1 := if p0 < 0 then 0 else if p0 > 1 then 1 else p0
  let ts1 := if timestampMs > bucket.lastUpdateTimeMs then timestampMs
    else bucket.lastUpdateTimeMs
  let bucket1 : Bucket :=
    { rowId := bucket.rowId, colId := bucket.colId, prob := p1,
      lastUpdateTimeMs := ts1 }
  (bucket1, alistSet seed (alistSet rowID (alistSet colID bucket1 colMap) rowMap) s)

/-- `InMemoryStore.GetSeed`: snapshot-copy every bucket under a seed;
empty list when the seed is absent. -/
def getSeed (seed : Nat) (s : Store) : List Bucket :=
  match alistFind seed s with
  | none => []
  | some rowMap => rowMap.flatMap (fun rc => rc.2.map (fun cb => cb.2))

/-- `InMemoryStore.EvictBefore`: delete every top-level seed key strictly
less than `seed`. -/
def evictBefore (seed : Nat) (s : Store) : Store :=
  s.filter (fun kv => !(kv.1 < seed))

/-- The bucket currently stored at `(seed, row, col)`, if any. -/
def storedBucket (seed rowID colID : Nat) (s : Store) : Option Bucket :=
  match alistFind seed s with
  | none => none
  | some rm =>
    match alistFind rowID rm with
    | none => none
    | some cm => alistFind colID cm

/-- The probability currently stored at `(seed, row, col)`, or `0` when the
bucket does not exist — the "old" value `ApplyDelta` starts from. -/
def storedProb (seed rowID colID : Nat) (s : Store) : Rat :=
  ((storedBucket seed rowID colID s).map Bucket.prob).getD 0

/-- The timestamp currently stored at `(seed, row, col)`, or `0` when the
bucket does not exist. -/
def storedTs (seed rowID colID : Nat) (s : Store) : Nat :=
  ((storedBucket seed rowID colID s).map Bucket.lastUpdateTimeMs).getD 0

/-- Clamp of a rational to `[0, 1]`, branch order as in the Go code. -/
def clamp01 (p : Rat) : Rat :=
  if p < 0 then 0 else if p > 1 then 1 else p

/-- A sequence of `ApplyDelta` calls `(seed, row, col, deltaProb, ts)`,
applied left to right. -/
def applyDeltas (calls : List (Nat × Nat × Nat × Rat × Nat)) (s : Store) : Store :=
  calls.foldl
    (fun st c => (applyDelta c.1 c.2.1 c.2.2.1 c.2.2.2.1 c.2.2.2.2 st).2) s

theorem alistFind_alistSet (k k1 : Nat) (v : α) (m : List (Nat × α)) :
    alistFind k1 (alistSet k v m) = if k = k1 then some v else alistFind k1 m := by
  induction m with
  | nil => rfl
  | cons hd tl ih =>
    obtain ⟨k2, v2⟩ := hd
    by_cases h2 : k2 = k
    · subst h2
      by_cases h1 : k2 = k1 <;> simp [alistFind, alistSet, h1]
    · by_cases h1 : k2 = k1
      · subst h1
        have hk : ¬ (k = k2) := fun h => h2 h.symm
        simp [alistFind, alistSet, h2, hk]
      · simp [alistFind, alistSet, h1, h2, ih]

theorem clamp01_nonneg (p : Rat) : 0 ≤ clamp01 p := by
  unfold clamp01
  split_ifs with h1 h2 <;> linarith

theorem clamp01_le_one (p : Rat) : clamp01 p ≤ 1 := by
  unfold clamp01
  split_ifs with h1 h2 <;> linarith

theorem storedProb_getD (seed rowID colID : Nat) (s : Store) :
    storedProb seed rowID colID s =
      ((alistFind colID ((alistFind rowID
          ((alistFind seed s).getD [])).getD [])).getD
        { rowId := rowID, colId := colID, prob := 0,
          lastUpdateTimeMs := 0 }).prob := by
  unfold storedProb storedBucket
  cases h1 : alistFind seed s with
  | none => simp [alistFind]
  | some rm =>
    cases h2 : alistFind rowID rm with
    | none => simp [alistFind, h2]
    | some cm =>
      cases h3 : alistFind colID cm with
      | none => simp [h2, h3]
      | some b => simp [h2, h3]

theorem storedTs_getD (seed rowID colID : Nat) (s : Store) :
    storedTs seed rowID colID s =
      ((alistFind colID ((alistFind rowID
          ((alistFind seed s).getD [])).getD [])).getD
        { rowId := rowID, colId := colID, prob := 0,
          lastUpdateTimeMs := 0 }).lastUpdateTimeMs := by
  unfold storedTs storedBucket
  cases h1 : alistFind seed s with
  | none => simp [alistFind]
  | some rm =>
    cases h2 : alistFind rowID rm with
    | none => simp [alistFind, h2]
    | some cm =>
      cases h3 : alistFind colID cm with
      | none => simp [h2, h3]
      | some b => simp [h2, h3]

theorem applyDelta_fst_prob (seed rowID colID : Nat) (d : Rat) (ts : Nat)
    (s : Store) :
    (applyDelta seed rowID colID d ts s).1.prob
      = clamp01 (storedProb seed rowID colID s + d) := by
  rw [storedProb_getD]
  rfl

theorem applyDelta_fst_ts (seed rowID colID : Nat) (d : Rat) (ts : Nat)
    (s : Store) :
    (applyDelta seed rowID colID d ts s).1.lastUpdateTimeMs
      = max (storedTs seed rowID colID s) ts := by
  rw [storedTs_getD]
  show (if ts > _ then ts else _) = _
  rcases Nat.lt_or_ge _ ts with h | h
  · rw [if_pos h, Nat.max_eq_right (Nat.le_of_lt h)]
  · rw [if_neg (Nat.not_lt.mpr h), Nat.max_eq_left h]

/-- Master update lemma: after `ApplyDelta` at `(seed, row, col)`, the
bucket stored at that key is exactly the returned bucket, and every other
key is untouched. -/
theorem storedBucket_applyDelta (seed rowID colID s1 r1 c1 : Nat) (d : Rat)
    (ts : Nat) (s : Store) :
    storedBucket s1 r1 c1 (applyDelta seed rowID colID d ts s).2
      = if s1 = seed ∧ r1 = rowID ∧ c1 = colID
        then some (applyDelta seed rowID colID d ts s).1
        else storedBucket s1 r1 c1 s := by
  unfold applyDelta storedBucket
  simp only [alistFind_alistSet]
  by_cases hs : seed = s1
  · subst hs
    simp only [if_pos rfl]
    by_cases hr : rowID = r1
    · subst hr
      simp only [alistFind_alistSet, if_pos rfl]
      by_cases hc : colID = c1
      · subst hc
        simp [alistFind_alistSet]
      · have hc1 : ¬ (c1 = colID) := fun h => hc h.symm
        simp only [alistFind_alistSet, if_neg hc, hc1, and_false, if_false]
        cases h1 : alistFind seed s with
        | none => simp [alistFind, alistFind_alistSet, hc]
        | some rm =>
          cases h2 : alistFind rowID rm with
          | none => simp [alistFind, alistFind_alistSet, h2, hc]
          | some cm => simp [alistFind_alistSet, h2, hc]
    · have hr1 : ¬ (r1 = rowID) := fun h => hr h.symm
      simp only [alistFind_alistSet, if_neg hr, hr1, false_and, and_false,
        if_false]
      cases h1 : alistFind seed s with
      | none => simp [alistFind, alistFind_alistSet, hr]
      | some rm => simp [alistFind_alistSet, h1, hr]
  · have hs1 : ¬ (s1 = seed) := fun h => hs h.symm
    simp [if_neg hs, hs1]

theorem storedProb_applyDelta_self (seed rowID colID : Nat) (d : Rat)
    (ts : Nat) (s : Store) :
    storedProb seed rowID colID (applyDelta seed rowID colID d ts s).2
      = clamp01 (storedProb seed rowID colID s + d) := by
  unfold storedProb
  rw [storedBucket_applyDelta]
  simp [applyDelta_fst_prob, storedProb]

theorem storedTs_applyDelta_self (seed rowID colID : Nat) (d : Rat)
    (ts : Nat) (s : Store) :
    storedTs seed rowID colID (applyDelta seed rowID colID d ts s).2
      = max (storedTs seed rowID colID s) ts := by
  unfold storedTs
  rw [storedBucket_applyDelta]
  simp [applyDelta_fst_ts, storedTs]

theorem storedTs_applyDelta_le (seed rowID colID s1 r1 c1 : Nat) (d : Rat)
    (ts : Nat) (s : Store) :
    storedTs s1 r1 c1 s
      ≤ storedTs s1 r1 c1 (applyDelta seed rowID colID d ts s).2 := by
  show storedTs s1 r1 c1 s
    ≤ ((storedBucket s1 r1 c1
        (applyDelta seed rowID colID d ts s).2).map
          Bucket.lastUpdateTimeMs).getD 0
  rw [storedBucket_applyDelta]
  split_ifs with h
  · obtain ⟨rfl, rfl, rfl⟩ := h
    simp only [Option.map_some', Option.getD_some, applyDelta_fst_ts]
    exact Nat.le_max_left _ _
  · exact Nat.le_refl _

theorem storedTs_applyDeltas_le (calls : List (Nat × Nat × Nat × Rat × Nat))
    (s1 r1 c1 : Nat) (s : Store) :
    storedTs s1 r1 c1 s ≤ storedTs s1 r1 c1 (applyDeltas calls s) := by
  induction calls generalizing s with
  | nil => exact Nat.le_refl _
  | cons c rest ih =>
    exact Nat.le_trans
      (storedTs_applyDelta_le c.1 c.2.1 c.2.2.1 s1 r1 c1 c.2.2.2.1 c.2.2.2.2 s)
      (ih _)

theorem alistFind_evictBefore_lt (seed s1 : Nat) (s : Store)
    (h : s1 < seed) : alistFind s1 (evictBefore seed s) = none := by
  induction s with
  | nil => rfl
  | cons hd tl ih =>
    obtain ⟨k, v⟩ := hd
    by_cases hk : k < seed
    · simpa [evictBefore, List.filter, hk] using ih
    · have hk1 : ¬ (k = s1) := fun he => hk (he ▸ h)
      simpa [evictBefore, List.filter, hk, alistFind, hk1] using ih

theorem alistFind_evictBefore_ge (seed s1 : Nat) (s : Store)
    (h : seed ≤ s1) : alistFind s1 (evictBefore seed s) = alistFind s1 s := by
  induction s with
  | nil => rfl
  | cons hd tl ih =>
    obtain ⟨k, v⟩ := hd
    by_cases hk : k < seed
    · have hk1 : ¬ (k = s1) := fun he => Nat.not_lt.mpr h (he ▸ hk)
      simpa [evictBefore, List.filter, hk, alistFind, hk1] using ih
    · by_cases hk1 : k = s1
      · subst hk1
        simp [evictBefore, List.filter, hk, alistFind]
      · simpa [evictBefore, List.filter, hk, alistFind, hk1] using ih

theorem alistFind_mem (k : Nat) (v : α) (m : List (Nat × α))
    (h : alistFind k m = some v) : (k, v) ∈ m := by
  induction m with
  | nil => simp [alistFind] at h
  | cons hd tl ih =>
    obtain ⟨k1, v1⟩ := hd
    by_cases hk : k1 = k
    · subst hk
      unfold alistFind at h
      rw [if_pos rfl] at h
      cases h
      exact List.mem_cons_self _ _
    · unfold alistFind at h
      rw [if_neg hk] at h
      exact List.mem_cons_of_mem _ (ih h)

theorem storedBucket_eq_some (seed rowID colID : Nat) (b : Bucket)
    (s : Store) :
    storedBucket seed rowID colID s = some b ↔
      ∃ rm cm, alistFind seed s = some rm ∧ alistFind rowID rm = some cm
        ∧ alistFind colID cm = some b := by
  unfold storedBucket
  cases h1 : alistFind seed s with
  | none => simp
  | some rm =>
    cases h2 : alistFind rowID rm with
    | none => simp [h2]
    | some cm => simp [h2]

theorem storedBucket_mem_getSeed (seed rowID colID : Nat) (b : Bucket)
    (s : Store) (h : storedBucket seed rowID colID s = some b) :
    b ∈ getSeed seed s := by
  obtain ⟨rm, cm, h1, h2, h3⟩ := (storedBucket_eq_some _ _ _ _ _).mp h
  unfold getSeed
  rw [h1, List.mem_flatMap]
  exact ⟨(rowID, cm), alistFind_mem _ _ _ h2,
    List.mem_map.mpr ⟨(colID, b), alistFind_mem _ _ _ h3, rfl⟩⟩

theorem storedBucket_eq_chain (seed rowID colID : Nat) (s : Store) :
    storedBucket seed rowID colID s
      = alistFind colID
          ((alistFind rowID ((alistFind seed s).getD [])).getD []) := by
  unfold storedBucket
  cases h1 : alistFind seed s with
  | none => simp [alistFind]
  | some rm =>
    cases h2 : alistFind rowID rm with
    | none => simp [alistFind, h2]
    | some cm => simp [h2]

end Fair

namespace Fair

/-- Claim C1: for every store state and every `ApplyDelta(seed, row, col,
deltaProb, ts)` call, the returned bucket probability equals
`clamp(old + deltaProb, 0, 1)` where `old` is the stored probability of
`(seed, row, col)` before the call (`0` when absent); the same value is
stored, and it always lies in `[0, 1]`. In particular `+0.7` then `+0.5`
yields `1`, and a further `-1.5` yields `0`. -/
theorem applyDelta_prob_clamp :
    (∀ (s : Store) (seed rowID colID : Nat) (d : Rat) (ts : Nat),
      (applyDelta seed rowID colID d ts s).1.prob
          = clamp01 (storedProb seed rowID colID s + d)
        ∧ storedProb seed rowID colID (applyDelta seed rowID colID d ts s).2
          = clamp01 (storedProb seed rowID colID s + d)
        ∧ 0 ≤ (applyDelta seed rowID colID d ts s).1.prob
        ∧ (applyDelta seed rowID colID d ts s).1.prob ≤ 1)
    ∧ (applyDelta 5 2 3 (0.5 : Rat) 2
        (applyDelta 5 2 3 (0.7 : Rat) 1 ([] : Store)).2).1.prob = 1
    ∧ (applyDelta 5 2 3 (-(1.5 : Rat)) 3
        (applyDelta 5 2 3 (0.5 : Rat) 2
          (applyDelta 5 2 3 (0.7 : Rat) 1 ([] : Store)).2).2).1.prob = 0 := by
  refine ⟨fun s seed rowID colID d ts =>
    ⟨applyDelta_fst_prob seed rowID colID d ts s,
     storedProb_applyDelta_self seed rowID colID d ts s, ?_, ?_⟩, ?_, ?_⟩
  · rw [applyDelta_fst_prob]
    exact clamp01_nonneg _
  · rw [applyDelta_fst_prob]
    exact clamp01_le_one _
  · norm_num [applyDelta, alistFind, alistSet]
  · norm_num [applyDelta, alistFind, alistSet]

/-- Claim C2: after `ApplyDelta(seed, row, col, d, ts)` the stored
`last_update_time_ms` equals `max(previous, ts)` (as does the returned
one); the stored timestamp is non-decreasing across every sequence of
`ApplyDelta` calls; an `ApplyDelta` carrying an older timestamp leaves the
stored timestamp unchanged; concretely, writing at `ts = 4000` and then at
`ts = 3500` leaves the stored timestamp at `4000`. -/
theorem applyDelta_timestamp_max :
    (∀ (s : Store) (seed rowID colID : Nat) (d : Rat) (ts : Nat),
      storedTs seed rowID colID (applyDelta seed rowID colID d ts s).2
          = max (storedTs seed rowID colID s) ts
        ∧ (applyDelta seed rowID colID d ts s).1.lastUpdateTimeMs
          = max (storedTs seed rowID colID s) ts)
    ∧ (∀ (s : Store) (s1 r1 c1 : Nat)
        (calls : List (Nat × Nat × Nat × Rat × Nat)),
        storedTs s1 r1 c1 s ≤ storedTs s1 r1 c1 (applyDeltas calls s))
    ∧ (∀ (s : Store) (seed rowID colID : Nat) (d : Rat) (ts : Nat),
        ts ≤ storedTs seed rowID colID s →
          storedTs seed rowID colID (applyDelta seed rowID colID d ts s).2
            = storedTs seed rowID colID s)
    ∧ storedTs 1 2 3 (applyDelta 1 2 3 (0.1 : Rat) 3500
        (applyDelta 1 2 3 (0.1 : Rat) 4000 ([] : Store)).2).2 = 4000 := by
  refine ⟨fun s seed rowID colID d ts =>
      ⟨storedTs_applyDelta_self seed rowID colID d ts s,
       applyDelta_fst_ts seed rowID colID d ts s⟩,
    fun s s1 r1 c1 calls => storedTs_applyDeltas_le calls s1 r1 c1 s,
    fun s seed rowID colID d ts h => ?_, ?_⟩
  · rw [storedTs_applyDelta_self]
    exact Nat.max_eq_left h
  · simp [applyDelta, alistFind, alistSet, storedTs, storedBucket]

/-- Witness for the hypothesis-bearing conjunct of `applyDelta_timestamp_max`:
at the concrete store holding timestamp `4000`, a later call carrying
`3500` leaves the stored timestamp unchanged. -/
theorem applyDelta_timestamp_max_witness :
    3500 ≤ storedTs 1 2 3 (applyDelta 1 2 3 (0.1 : Rat) 4000 ([] : Store)).2
    ∧ storedTs 1 2 3 (applyDelta 1 2 3 (0.1 : Rat) 3500
        (applyDelta 1 2 3 (0.1 : Rat) 4000 ([] : Store)).2).2
      = storedTs 1 2 3 (applyDelta 1 2 3 (0.1 : Rat) 4000 ([] : Store)).2 :=
  ⟨by simp [applyDelta, alistFind, alistSet, storedTs, storedBucket],
   applyDelta_timestamp_max.2.2.1 _ 1 2 3 (0.1 : Rat) 3500
     (by simp [applyDelta, alistFind, alistSet, storedTs, storedBucket])⟩

/-- Claim C6: `EvictBefore(seed)` empties exactly the seeds strictly below
`seed` (their `GetSeed` becomes empty), leaves every seed at or above
`seed` with its whole subtree unchanged, and is idempotent. -/
theorem evictBefore_exact :
    (∀ (s : Store) (seed s1 : Nat), s1 < seed →
        getSeed s1 (evictBefore seed s) = [])
    ∧ (∀ (s : Store) (seed s1 : Nat), seed ≤ s1 →
        alistFind s1 (evictBefore seed s) = alistFind s1 s)
    ∧ (∀ (s : Store) (seed : Nat),
        evictBefore seed (evictBefore seed s) = evictBefore seed s) := by
  refine ⟨fun s seed s1 h => ?_, fun s seed s1 h => alistFind_evictBefore_ge seed s1 s h,
    fun s seed => ?_⟩
  · unfold getSeed
    rw [alistFind_evictBefore_lt seed s1 s h]
  · simp [evictBefore, List.filter_filter]

/-- Witness for `evictBefore_exact` at a concrete two-seed store: seed `2`
is emptied by `EvictBefore(5)` while seed `7` is untouched. -/
theorem evictBefore_exact_witness :
    ((2 : Nat) < 5
      ∧ getSeed 2 (evictBefore 5
          [(2, [(0, [(1, { rowId := 0, colId := 1, prob := 1, lastUpdateTimeMs := 10 })])]),
           (7, [(3, [(4, { rowId := 3, colId := 4, prob := 0.5, lastUpdateTimeMs := 20 })])])]) = [])
    ∧ ((5 : Nat) ≤ 7
      ∧ alistFind 7 (evictBefore 5
          [(2, [(0, [(1, { rowId := 0, colId := 1, prob := 1, lastUpdateTimeMs := 10 })])]),
           (7, [(3, [(4, { rowId := 3, colId := 4, prob := 0.5, lastUpdateTimeMs := 20 })])])])
        = alistFind 7
          [(2, [(0, [(1, { rowId := 0, colId := 1, prob := 1, lastUpdateTimeMs := 10 })])]),
           (7, [(3, [(4, { rowId := 3, colId := 4, prob := 0.5, lastUpdateTimeMs := 20 })])])]) :=
  ⟨⟨by decide, evictBefore_exact.1 _ 5 2 (by decide)⟩,
   ⟨by decide, evictBefore_exact.2.1 _ 5 7 (by decide)⟩⟩

/-- Claim C10: `ApplyDelta` always materializes the addressed bucket: when
`(seed, row, col)` is absent, the call creates it with probability
`clamp(delta, 0, 1)` and timestamp `max(0, ts)` (also for zero and negative
deltas), and the created bucket shows up in `GetSeed(seed)`. -/
theorem applyDelta_materializes :
    ∀ (s : Store) (seed rowID colID : Nat) (d : Rat) (ts : Nat),
      storedBucket seed rowID colID s = none →
        (applyDelta seed rowID colID d ts s).1
            = { rowId := rowID, colId := colID, prob := clamp01 d,
                lastUpdateTimeMs := max 0 ts }
        ∧ storedBucket seed rowID colID (applyDelta seed rowID colID d ts s).2
            = some { rowId := rowID, colId := colID, prob := clamp01 d,
                     lastUpdateTimeMs := max 0 ts }
        ∧ (applyDelta seed rowID colID d ts s).1
            ∈ getSeed seed (applyDelta seed rowID colID d ts s).2 := by
  intro s seed rowID colID d ts h
  have hchain : alistFind colID
      ((alistFind rowID ((alistFind seed s).getD [])).getD []) = none := by
    rw [← storedBucket_eq_chain]
    exact h
  have hfst : (applyDelta seed rowID colID d ts s).1
      = { rowId := rowID, colId := colID, prob := clamp01 d,
          lastUpdateTimeMs := max 0 ts } := by
    unfold applyDelta
    simp only [hchain, Option.getD_none, Bucket.mk.injEq, zero_add]
    refine ⟨trivial, trivial, ?_, ?_⟩
    · unfold clamp01
      rfl
    · split <;> omega
  have hstored : storedBucket seed rowID colID
      (applyDelta seed rowID colID d ts s).2
      = some (applyDelta seed rowID colID d ts s).1 := by
    rw [storedBucket_applyDelta]
    simp
  refine ⟨hfst, ?_, storedBucket_mem_getSeed _ _ _ _ _ hstored⟩
  rw [hstored, hfst]

/-- Witness for `applyDelta_materializes`: a zero delta on the empty store
still creates the bucket and `GetSeed` lists it. -/
theorem applyDelta_materializes_witness :
    storedBucket 4 0 9 ([] : Store) = none
    ∧ (applyDelta 4 0 9 0 777 ([] : Store)).1
        ∈ getSeed 4 (applyDelta 4 0 9 0 777 ([] : Store)).2 :=
  ⟨rfl, (applyDelta_materializes [] 4 0 9 0 777 rfl).2.2⟩

/-- One bucket delta on the wire (`statepb.BucketDelta`). -/
structure BucketDelta where
  rowId : Nat
  colId : Nat
  deltaProb : Rat
  lastUpdateTimeMs : Nat
deriving DecidableEq, Repr

/-- A `statepb.SyncRequest`: exactly one of a delta update or a full-state
request, mirroring the `oneof` in the wire schema. -/
inductive SyncRequest where
  | deltaUpdate (seed : Nat) (deltas : List BucketDelta)
  | stateRequest (seed : Nat)
deriving DecidableEq, Repr

/-- A `statepb.SyncResponse`: a seed and the buckets being broadcast. -/
structure SyncResponse where
  seed : Nat
  buckets : List Bucket
deriving DecidableEq, Repr

/-- The state client's bounded outbound buffer (`Client.sendCh`, a buffered
channel created with capacity 1024): its pending requests in FIFO order and
its capacity. -/
structure ClientQueue where
  pending : List SyncRequest
  capacity : Nat
deriving DecidableEq, Repr

/-- The non-blocking enqueue used by both producers:
`select { case c.sendCh <- req: default: log and drop }`. The request is
appended when the buffer has room and dropped otherwise. -/
def chanOffer (req : SyncRequest) (c : ClientQueue) : ClientQueue :=
  if c.pending.length < c.capacity
  then { c with pending := c.pending ++ [req] }
  else c

/-- `Client.SendDeltaUpdate`: wrap the deltas in a `SyncRequest` and offer
it to the outbound buffer without blocking. -/
def sendDeltaUpdate (seed : Nat) (deltas : List BucketDelta)
    (c : ClientQueue) : ClientQueue :=
  chanOffer (SyncRequest.deltaUpdate seed deltas) c

/-- `Client.RequestFullState`: wrap the seed in a `SyncRequest` and offer
it to the outbound buffer without blocking. -/
def requestFullState (seed : Nat) (c : ClientQueue) : ClientQueue :=
  chanOffer (SyncRequest.stateRequest seed) c

/-- An abstract counting structure as held by the tracker: the Go tracker
consumes `request.Tracker` through an interface, so only its identity
(`GetID`, the seed it was built for) and an opaque internal state are
modelled. -/
structure TrackerStructure (σ : Type) where
  id : Nat
  state : σ
deriving DecidableEq, Repr

/-- The `FairnessTracker` fields touched by rotation and dispatch: the main
and secondary structures and the optional state client. -/
structure FairnessTracker (σ : Type) where
  mainStructure : TrackerStructure σ
  secondaryStructure : TrackerStructure σ
  stateClient : Option ClientQueue
deriving DecidableEq, Repr

/-- `createStructure`: build a fresh counting structure for a seed;
`init` stands for `newTrackerStructureWithClock`. -/
def createStructure (init : Nat → σ) (seed : Nat) : TrackerStructure σ :=
  { id := seed, state := init seed }

/-- `NewFairnessTrackerWithClockAndTicker`: compute
`currentSeed = now / window` and `nextSeed = currentSeed + 1` from the
injected clock, build both structures, and request their full state from
the state client when one is attached. -/
def newFairnessTracker (init : Nat → σ) (windowMs nowMs : Nat)
    (client : Option ClientQueue) : FairnessTracker σ :=
  let currentSeed := nowMs / windowMs
  let nextSeed := currentSeed + 1
  { mainStructure := createStructure init currentSeed,
    secondaryStructure := createStructure init nextSeed,
    stateClient :=
      (client.map (requestFullState currentSeed)).map
        (requestFullState nextSeed) }

/-- One firing of the rotation goroutine's ticker: compute
`seed = now / window + 1`, build a fresh structure for it, request its
full state when a state client is attached, then under the rotation lock
assign `main ← secondary` and `secondary ← new`. -/
def rotateTick (init : Nat → σ) (windowMs nowMs : Nat)
    (ft : FairnessTracker σ) : FairnessTracker σ :=
  let seed := nowMs / windowMs + 1
  { mainStructure := ft.secondaryStructure,
    secondaryStructure := createStructure init seed,
    stateClient := ft.stateClient.map (requestFullState seed) }

/-- A sequence of rotation ticks at the given clock readings. -/
def runTicks (init : Nat → σ) (windowMs : Nat) (ft : FairnessTracker σ) :
    List Nat → FairnessTracker σ
  | [] => ft
  | now :: rest => runTicks init windowMs (rotateTick init windowMs now ft) rest

/-- Whether each rotation tick fires only once the clock's window index
has reached the then-current secondary's seed (the real ticker, firing
once per window, satisfies this). -/
def ticksOk (init : Nat → σ) (windowMs : Nat) (ft : FairnessTracker σ) :
    List Nat → Bool
  | [] => true
  | now :: rest =>
    decide (ft.secondaryStructure.id ≤ now / windowMs)
      && ticksOk init windowMs (rotateTick init windowMs now ft) rest

/-- `FairnessTracker.RegisterRequest`: call the main structure, then the
secondary structure, with the same client identifier; return the main
structure's response. `op` stands for the interface method
`request.Tracker.RegisterRequest`. -/
def registerRequestFT (op : TrackerStructure σ → List Nat → σ × ρ)
    (ft : FairnessTracker σ) (cid : List Nat) : FairnessTracker σ × ρ :=
  let resp := op ft.mainStructure cid
  let resp2 := op ft.secondaryStructure cid
  ({ ft with
      mainStructure := { ft.mainStructure with state := resp.1 },
      secondaryStructure := { ft.secondaryStructure with state := resp2.1 } },
   resp.2)

/-- The outcome reported for a request (`request.Outcome`). -/
inductive Outcome where
  | success
  | failure
deriving DecidableEq, Repr

/-- `FairnessTracker.ReportOutcome`: call the main structure, then the
secondary structure, with the same identifier and outcome; return the
main structure's response. -/
def reportOutcomeFT (op : TrackerStructure σ → List Nat → Outcome → σ × ρ)
    (ft : FairnessTracker σ) (cid : List Nat) (oc : Outcome) :
    FairnessTracker σ × ρ :=
  let resp := op ft.mainStructure cid oc
  let resp2 := op ft.secondaryStructure cid oc
  ({ ft with
      mainStructure := { ft.mainStructure with state := resp.1 },
      secondaryStructure := { ft.secondaryStructure with state := resp2.1 } },
   resp.2)

/-- One client record of the broadcast hub: its bounded outbound channel
(`Send`, created with capacity 256), the capacity, and whether the channel
has been closed. -/
structure HubClient where
  sendQ : List SyncResponse
  capacity : Nat
  closed : Bool
deriving DecidableEq, Repr

/-- `Hub.Register`: append a fresh client with an empty outbound channel
of capacity 256. -/
def hubRegister (clients : List HubClient) : List HubClient × HubClient :=
  let c : HubClient := { sendQ := [], capacity := 256, closed := false }
  (clients ++ [c], c)

/-- The `broadcast` case of `Hub.Run`: offer the message to every
registered client's channel with a non-blocking send; a client whose
channel is full has its channel closed and is deleted from the set.
Returns the remaining client set and the dropped (closed) clients. -/
def hubBroadcast (msg : SyncResponse) :
    List HubClient → List HubClient × List HubClient
  | [] => ([], [])
  | c :: rest =>
    let r := hubBroadcast msg rest
    if c.sendQ.length < c.capacity
    then ({ c with sendQ := c.sendQ ++ [msg] } :: r.1, r.2)
    else (r.1, { c with closed := true } :: r.2)

theorem runTicks_id_lt (init : Nat → σ) (windowMs : Nat)
    (ticks : List Nat) (ft : FairnessTracker σ)
    (hinv : ft.mainStructure.id < ft.secondaryStructure.id)
    (hok : ticksOk init windowMs ft ticks = true) :
    (runTicks init windowMs ft ticks).mainStructure.id
      < (runTicks init windowMs ft ticks).secondaryStructure.id := by
  induction ticks generalizing ft with
  | nil => exact hinv
  | cons now rest ih =>
    simp only [ticksOk, Bool.and_eq_true, decide_eq_true_eq] at hok
    refine ih (rotateTick init windowMs now ft) ?_ hok.2
    show ft.secondaryStructure.id < now / windowMs + 1
    exact Nat.lt_succ_of_le hok.1

theorem hubBroadcast_length (msg : SyncResponse) (hc : List HubClient) :
    (hubBroadcast msg hc).1.length + (hubBroadcast msg hc).2.length
      = hc.length := by
  induction hc with
  | nil => rfl
  | cons c rest ih =>
    simp only [hubBroadcast]
    split_ifs with h <;> simp only [List.length_cons] <;> omega

theorem hubBroadcast_mem_enqueued (msg : SyncResponse) (hc : List HubClient)
    (c : HubClient) (hmem : c ∈ hc) (hlen : c.sendQ.length < c.capacity) :
    { c with sendQ := c.sendQ ++ [msg] } ∈ (hubBroadcast msg hc).1 := by
  induction hc with
  | nil => cases hmem
  | cons c0 rest ih =>
    simp only [hubBroadcast]
    rcases List.mem_cons.mp hmem with h0 | h0
    · subst h0
      rw [if_pos hlen]
      exact List.mem_cons_self _ _
    · split_ifs with h
      · exact List.mem_cons_of_mem _ (ih h0)
      · exact ih h0

theorem hubBroadcast_mem_dropped (msg : SyncResponse) (hc : List HubClient)
    (c : HubClient) (hmem : c ∈ hc) (hlen : c.capacity ≤ c.sendQ.length) :
    { c with closed := true } ∈ (hubBroadcast msg hc).2 := by
  induction hc with
  | nil => cases hmem
  | cons c0 rest ih =>
    simp only [hubBroadcast]
    rcases List.mem_cons.mp hmem with h0 | h0
    · subst h0
      rw [if_neg (Nat.not_lt.mpr hlen)]
      exact List.mem_cons_self _ _
    · split_ifs with h
      · exact ih h0
      · exact List.mem_cons_of_mem _ (ih h0)

theorem hubBroadcast_kept_has_msg (msg : SyncResponse) (hc : List HubClient) :
    ∀ c ∈ (hubBroadcast msg hc).1, msg ∈ c.sendQ := by
  induction hc with
  | nil => intro c h0; cases h0
  | cons c0 rest ih =>
    intro c hmem
    simp only [hubBroadcast] at hmem
    split_ifs at hmem with h
    · rcases List.mem_cons.mp hmem with h0 | h0
      · subst h0
        exact List.mem_append_right _ (List.mem_singleton_self msg)
      · exact ih c h0
    · exact ih c hmem

theorem hubBroadcast_dropped_closed (msg : SyncResponse)
    (hc : List HubClient) :
    ∀ c ∈ (hubBroadcast msg hc).2, c.closed = true := by
  induction hc with
  | nil => intro c h0; cases h0
  | cons c0 rest ih =>
    intro c hmem
    simp only [hubBroadcast] at hmem
    split_ifs at hmem with h
    · exact ih c hmem
    · rcases List.mem_cons.mp hmem with h0 | h0
      · subst h0
        rfl
      · exact ih c h0

end Fair

namespace Fair

/-- Claim C3 (counterexample): the tracker, constructed at time `0` with a
100 ms window (seeds `0` and `1`), rotated by a tick that fires while the
clock still reads `50` — inside the same window — reaches a state where
main and secondary carry the same seed `1`. -/
theorem tracker_seeds_shared_cex :
    (runTicks (fun _ => ()) 100
        (newFairnessTracker (fun _ => ()) 100 0 none) [50]).mainStructure.id
      = (runTicks (fun _ => ()) 100
        (newFairnessTracker (fun _ => ()) 100 0 none) [50]).secondaryStructure.id
    ∧ (runTicks (fun _ => ()) 100
        (newFairnessTracker (fun _ => ()) 100 0 none) [50]).mainStructure.id = 1 := by
  exact ⟨rfl, rfl⟩

/-- Claim C3 (amended): in every state reachable from construction by a
sequence of rotation ticks in which each tick fires only once the clock's
window index `now / window` has reached the then-current secondary's seed
(which the real once-per-window ticker guarantees), the main and secondary
structures carry distinct seeds. -/
theorem tracker_seeds_distinct (init : Nat → σ) (windowMs now0 : Nat)
    (client : Option ClientQueue) (ticks : List Nat)
    (hok : ticksOk init windowMs
      (newFairnessTracker init windowMs now0 client) ticks = true) :
    (runTicks init windowMs
        (newFairnessTracker init windowMs now0 client) ticks).mainStructure.id
      ≠ (runTicks init windowMs
        (newFairnessTracker init windowMs now0 client) ticks).secondaryStructure.id :=
  Nat.ne_of_lt (runTicks_id_lt init windowMs ticks _ (Nat.lt_succ_self _) hok)

/-- Witness for `tracker_seeds_distinct`: construction at time `0` with a
100 ms window followed by well-separated ticks at `150` and `250` keeps
the two seeds distinct. -/
theorem tracker_seeds_distinct_witness :
    ticksOk (fun _ => ()) 100
        (newFairnessTracker (fun _ => ()) 100 0 none) [150, 250] = true
    ∧ (runTicks (fun _ => ()) 100
        (newFairnessTracker (fun _ => ()) 100 0 none) [150, 250]).mainStructure.id
      ≠ (runTicks (fun _ => ()) 100
        (newFairnessTracker (fun _ => ()) 100 0 none) [150, 250]).secondaryStructure.id :=
  ⟨by decide, tracker_seeds_distinct (fun _ => ()) 100 0 none [150, 250] (by decide)⟩

/-- Claim C4: a rotation tick computes the new secondary's seed as
`now / window + 1` from the injected clock, the new main is the previous
secondary, the new secondary is the freshly built structure for that seed,
and when a state client is attached a full-state request for the new seed
is offered to it. -/
theorem rotation_tick_contract (init : Nat → σ) (windowMs nowMs : Nat)
    (ft : FairnessTracker σ) :
    (rotateTick init windowMs nowMs ft).secondaryStructure.id
        = nowMs / windowMs + 1
    ∧ (rotateTick init windowMs nowMs ft).mainStructure
        = ft.secondaryStructure
    ∧ (rotateTick init windowMs nowMs ft).secondaryStructure
        = createStructure init (nowMs / windowMs + 1)
    ∧ (rotateTick init windowMs nowMs ft).stateClient
        = ft.stateClient.map (requestFullState (nowMs / windowMs + 1)) :=
  ⟨rfl, rfl, rfl, rfl⟩

/-- Claim C5: one `FairnessTracker.RegisterRequest` invokes the structure
operation on both the main and the secondary structure with the same
client identifier, and one `FairnessTracker.ReportOutcome` does likewise
with the same identifier and outcome: afterwards each structure's state is
exactly the state produced by applying the operation to it. -/
theorem dual_write_dispatch {σ ρ : Type}
    (reg : TrackerStructure σ → List Nat → σ × ρ)
    (rep : TrackerStructure σ → List Nat → Outcome → σ × ρ)
    (ft : FairnessTracker σ) (cid : List Nat) (oc : Outcome) :
    (registerRequestFT reg ft cid).1.mainStructure.state
        = (reg ft.mainStructure cid).1
    ∧ (registerRequestFT reg ft cid).1.secondaryStructure.state
        = (reg ft.secondaryStructure cid).1
    ∧ (reportOutcomeFT rep ft cid oc).1.mainStructure.state
        = (rep ft.mainStructure cid oc).1
    ∧ (reportOutcomeFT rep ft cid oc).1.secondaryStructure.state
        = (rep ft.secondaryStructure cid oc).1 :=
  ⟨rfl, rfl, rfl, rfl⟩

/-- Claim C9: the result returned by `FairnessTracker.RegisterRequest`
(resp. `ReportOutcome`) is exactly the main structure's result; the
secondary structure's result is discarded — two trackers sharing the same
main structure return the same result whatever their secondaries hold. -/
theorem main_result_returned {σ ρ : Type}
    (reg : TrackerStructure σ → List Nat → σ × ρ)
    (rep : TrackerStructure σ → List Nat → Outcome → σ × ρ)
    (ft ft2 : FairnessTracker σ) (cid : List Nat) (oc : Outcome) :
    (registerRequestFT reg ft cid).2 = (reg ft.mainStructure cid).2
    ∧ (reportOutcomeFT rep ft cid oc).2 = (rep ft.mainStructure cid oc).2
    ∧ (ft2.mainStructure = ft.mainStructure →
        (registerRequestFT reg ft2 cid).2 = (registerRequestFT reg ft cid).2
        ∧ (reportOutcomeFT rep ft2 cid oc).2
            = (reportOutcomeFT rep ft cid oc).2) := by
  refine ⟨rfl, rfl, fun h => ⟨?_, ?_⟩⟩
  · show (reg ft2.mainStructure cid).2 = (reg ft.mainStructure cid).2
    rw [h]
  · show (rep ft2.mainStructure cid oc).2 = (rep ft.mainStructure cid oc).2
    rw [h]

/-- Witness for `main_result_returned` at concrete data: two trackers with
the same main structure but different secondaries return the same
register-request result. -/
theorem main_result_returned_witness :
    ((⟨⟨3, 0⟩, ⟨4, 5⟩, none⟩ : FairnessTracker Nat).mainStructure
        = (⟨⟨3, 0⟩, ⟨9, 7⟩, none⟩ : FairnessTracker Nat).mainStructure)
    ∧ (registerRequestFT (fun st cid => (st.state + cid.length, st.id))
          (⟨⟨3, 0⟩, ⟨4, 5⟩, none⟩ : FairnessTracker Nat) [1, 2]).2
        = (registerRequestFT (fun st cid => (st.state + cid.length, st.id))
          (⟨⟨3, 0⟩, ⟨9, 7⟩, none⟩ : FairnessTracker Nat) [1, 2]).2 :=
  ⟨rfl,
    ((main_result_returned (fun st cid => (st.state + cid.length, st.id))
        (fun st _ _ => (st.state, st.id))
        (⟨⟨3, 0⟩, ⟨9, 7⟩, none⟩ : FairnessTracker Nat)
        (⟨⟨3, 0⟩, ⟨4, 5⟩, none⟩ : FairnessTracker Nat)
        [1, 2] Outcome.success).2.2 rfl).1⟩

/-- Claim C7: a broadcast offers the message to every registered client
without blocking: each client with a free slot reappears with the message
appended to its queue, each client with a full queue is closed and moved
out of the set, every surviving client holds the message, every dropped
client is closed, and no client is lost (the kept and dropped clients
together account for the whole set). -/
theorem hub_broadcast_total (msg : SyncResponse) (hc : List HubClient) :
    (∀ c ∈ hc,
      (c.sendQ.length < c.capacity →
        { c with sendQ := c.sendQ ++ [msg] } ∈ (hubBroadcast msg hc).1)
      ∧ (c.capacity ≤ c.sendQ.length →
        { c with closed := true } ∈ (hubBroadcast msg hc).2))
    ∧ (∀ c ∈ (hubBroadcast msg hc).1, msg ∈ c.sendQ)
    ∧ (∀ c ∈ (hubBroadcast msg hc).2, c.closed = true)
    ∧ (hubBroadcast msg hc).1.length + (hubBroadcast msg hc).2.length
        = hc.length :=
  ⟨fun c hmem =>
    ⟨fun hlen => hubBroadcast_mem_enqueued msg hc c hmem hlen,
     fun hlen => hubBroadcast_mem_dropped msg hc c hmem hlen⟩,
   hubBroadcast_kept_has_msg msg hc,
   hubBroadcast_dropped_closed msg hc,
   hubBroadcast_length msg hc⟩

/-- Witness for `hub_broadcast_total`: in a hub holding one client with a
free slot and one with a full queue, broadcasting keeps the first with the
message enqueued and drops the second closed. -/
theorem hub_broadcast_total_witness :
    ((⟨[], 1, false⟩ : HubClient)
        ∈ [(⟨[], 1, false⟩ : HubClient), ⟨[⟨0, []⟩], 1, false⟩]
      ∧ ([] : List SyncResponse).length < 1
      ∧ ({ (⟨[], 1, false⟩ : HubClient) with sendQ := [] ++ [⟨9, []⟩] }
          ∈ (hubBroadcast ⟨9, []⟩
            [(⟨[], 1, false⟩ : HubClient), ⟨[⟨0, []⟩], 1, false⟩]).1))
    ∧ ((⟨[⟨0, []⟩], 1, false⟩ : HubClient)
        ∈ [(⟨[], 1, false⟩ : HubClient), ⟨[⟨0, []⟩], 1, false⟩]
      ∧ (1 : Nat) ≤ ([(⟨0, []⟩ : SyncResponse)]).length
      ∧ ({ (⟨[⟨0, []⟩], 1, false⟩ : HubClient) with closed := true }
          ∈ (hubBroadcast ⟨9, []⟩
            [(⟨[], 1, false⟩ : HubClient), ⟨[⟨0, []⟩], 1, false⟩]).2)) :=
  ⟨⟨by decide, by decide,
    ((hub_broadcast_total ⟨9, []⟩
        [(⟨[], 1, false⟩ : HubClient), ⟨[⟨0, []⟩], 1, false⟩]).1
      (⟨[], 1, false⟩ : HubClient) (by decide)).1 (by decide)⟩,
   ⟨by decide, by decide,
    ((hub_broadcast_total ⟨9, []⟩
        [(⟨[], 1, false⟩ : HubClient), ⟨[⟨0, []⟩], 1, false⟩]).1
      (⟨[⟨0, []⟩], 1, false⟩ : HubClient) (by decide)).2 (by decide)⟩⟩

/-- Claim C8: both state client producers enqueue without blocking: with
free capacity the request is appended to the outbound buffer, and on a
full buffer the offered request is dropped and the buffer is left
unchanged. -/
theorem client_enqueue_nonblocking (c : ClientQueue) (seed : Nat)
    (deltas : List BucketDelta) :
    (c.pending.length < c.capacity →
      (sendDeltaUpdate seed deltas c).pending
          = c.pending ++ [SyncRequest.deltaUpdate seed deltas]
      ∧ (requestFullState seed c).pending
          = c.pending ++ [SyncRequest.stateRequest seed])
    ∧ (c.capacity ≤ c.pending.length →
      sendDeltaUpdate seed deltas c = c ∧ requestFullState seed c = c) := by
  constructor
  · intro h
    constructor <;> simp [sendDeltaUpdate, requestFullState, chanOffer, h]
  · intro h
    constructor <;>
      simp [sendDeltaUpdate, requestFullState, chanOffer, Nat.not_lt.mpr h]

/-- Witness for `client_enqueue_nonblocking`: a queue with room takes the
delta update; a full queue drops it unchanged. -/
theorem client_enqueue_nonblocking_witness :
    (([] : List SyncRequest).length < 2
      ∧ (sendDeltaUpdate 7 [] (⟨[], 2⟩ : ClientQueue)).pending
          = [] ++ [SyncRequest.deltaUpdate 7 []]
      ∧ (requestFullState 7 (⟨[], 2⟩ : ClientQueue)).pending
          = [] ++ [SyncRequest.stateRequest 7])
    ∧ ((1 : Nat) ≤ ([SyncRequest.stateRequest 0] : List SyncRequest).length
      ∧ sendDeltaUpdate 7 [] (⟨[SyncRequest.stateRequest 0], 1⟩ : ClientQueue)
          = (⟨[SyncRequest.stateRequest 0], 1⟩ : ClientQueue)) :=
  ⟨⟨by decide,
    (client_enqueue_nonblocking (⟨[], 2⟩ : ClientQueue) 7 []).1 (by decide)⟩,
   ⟨by decide,
    ((client_enqueue_nonblocking
        (⟨[SyncRequest.stateRequest 0], 1⟩ : ClientQueue) 7 []).2
      (by decide)).1⟩⟩

end Fair
